import Mathlib

/-!
Shallow embedding of the pump-sniper trading bot (Rust) and proofs about it.

Conventions used throughout:
* Rust machine integers (`u64`, `u128`) are embedded as `ℕ`; an `as u64`
  cast is `% U64` (silent truncation, as in Rust), while checked arithmetic
  that can panic on overflow/underflow is embedded as `Option` (a `none`
  result models the panic).
* Rust `f64` values that only carry exact decimal data in the claims under
  study (the USD threshold, the progress percentage) are embedded as `ℚ`.
* Solana `Pubkey` values are opaque identifiers, embedded as `ℕ`.
* The `String` payloads of error variants carry only log messages and are
  elided from the embedded `SniperError`.
-/

namespace PumpSniper

/-- Number of values of a Rust `u64`; `x % U64` embeds an `as u64` cast. -/
def U64 : ℕ := 2 ^ 64

/-- Error taxonomy of the bot (src/error/mod.rs), message strings elided. -/
inductive SniperError where
  | GrpcConnectionFailed
  | TransactionParseError
  | BondingCurveComplete
  | InsufficientFunds
  | TransactionFailed
  | RpcError
  | SerializationError
  | InvalidConfig
  | TokenNotFound
  | MarketCapCalculationFailed
  | SlippageExceeded
deriving DecidableEq, Repr

/-- On-chain bonding-curve account snapshot (src/accounts/bonding_curve.rs).
All integer fields are Rust `u64`; `creator` is a `Pubkey`. -/
structure BondingCurveAccount where
  discriminator : ℕ
  virtual_token_reserves : ℕ
  virtual_sol_reserves : ℕ
  real_token_reserves : ℕ
  real_sol_reserves : ℕ
  token_total_supply : ℕ
  complete : Bool
  creator : ℕ
deriving DecidableEq, Repr

/-- The struct fields fit in a `u64`, as they do in the Rust source. -/
def BondingCurveAccount.WF (c : BondingCurveAccount) : Prop :=
  c.discriminator < U64 ∧ c.virtual_token_reserves < U64 ∧
  c.virtual_sol_reserves < U64 ∧ c.real_token_reserves < U64 ∧
  c.real_sol_reserves < U64 ∧ c.token_total_supply < U64

instance (c : BondingCurveAccount) : Decidable c.WF := by
  unfold BondingCurveAccount.WF; infer_instance

/-- `BondingCurveAccount::get_market_cap_sol` (src/accounts/bonding_curve.rs
lines 20-27).  The Rust body computes the quotient in `u128` and then casts
the result with `as u64`, which truncates; the cast is the final `% U64`. -/
def BondingCurveAccount.get_market_cap_sol (c : BondingCurveAccount) : ℕ :=
  if c.virtual_token_reserves = 0 then 0
  else (c.token_total_supply * c.virtual_sol_reserves / c.virtual_token_reserves) % U64

/-- `BondingCurveAccount::get_buy_price` (src/accounts/bonding_curve.rs lines
29-49).  The `u128` subtraction `s = virtual_token_reserves - r` panics when
`r` exceeds the reserves; that panic is modelled as `none`.  The final
`as u64` cast of `s` is `% U64`. -/
def BondingCurveAccount.get_buy_price (c : BondingCurveAccount) (sol_amount : ℕ) :
    Option (Except SniperError ℕ) :=
  if c.complete then some (.error .BondingCurveComplete)
  else if sol_amount = 0 then some (.ok 0)
  else
    let n := c.virtual_sol_reserves * c.virtual_token_reserves
    let i := c.virtual_sol_reserves + sol_amount
    let r := n / i + 1
    if r ≤ c.virtual_token_reserves then
      let s := c.virtual_token_reserves - r
      let token_amount := s % U64
      some (.ok (if token_amount < c.real_token_reserves then token_amount
                 else c.real_token_reserves))
    else none

/-- `BondingCurveAccount::get_curve_progress` (src/accounts/bonding_curve.rs
lines 71-78).  The `u64` subtraction `token_total_supply -
real_token_reserves` panics on underflow (modelled as `none`); the `f64`
percentage is embedded as an exact rational. -/
def BondingCurveAccount.get_curve_progress (c : BondingCurveAccount) : Option ℚ :=
  if c.token_total_supply = 0 then some 0
  else if c.real_token_reserves ≤ c.token_total_supply then
    let tokens_sold := c.token_total_supply - c.real_token_reserves
    some ((tokens_sold : ℚ) / (c.token_total_supply : ℚ) * 100)
  else none

/-- Serialized byte size of `BondingCurveAccount`: an 8-byte discriminator,
five 8-byte little-endian `u64` fields, a 1-byte flag and a 32-byte creator
address (src/accounts/bonding_curve.rs lines 7-17). -/
def bondingCurveAccountSize : ℕ := 8 + 8 + 8 + 8 + 8 + 8 + 1 + 32

/-- The byte-size constant written into the account `Datasize` filter of the
subscription request (src/common/stream.rs line 101). -/
def subscriptionDatasizeFilter : ℕ := 8 + 32 + 32 + 8 + 8 + 8 + 8 + 1

/-- The Scenario A curve of the spec, also the fixture of the Rust tests. -/
def scenarioCurve : BondingCurveAccount :=
  { discriminator := 1
    virtual_token_reserves := 1000000000
    virtual_sol_reserves := 30000000000
    real_token_reserves := 800000000
    real_sol_reserves := 0
    token_total_supply := 1000000000
    complete := false
    creator := 7 }

/-- A snapshot with zero virtual token reserves: decoding such an account is
possible, and a positive buy amount drives `get_buy_price` into the
underflowing subtraction. -/
def zeroVtCurve : BondingCurveAccount :=
  { discriminator := 0
    virtual_token_reserves := 0
    virtual_sol_reserves := 1
    real_token_reserves := 5
    real_sol_reserves := 0
    token_total_supply := 10
    complete := false
    creator := 0 }

/-- A snapshot on which the 128-bit market-cap quotient exceeds the `u64`
range, so the `as u64` cast truncates. -/
def hugeCurve : BondingCurveAccount :=
  { discriminator := 0
    virtual_token_reserves := 1
    virtual_sol_reserves := 2 ^ 64 - 1
    real_token_reserves := 0
    real_sol_reserves := 0
    token_total_supply := 2 ^ 64 - 1
    complete := false
    creator := 0 }

instance {α β : Type} [DecidableEq α] [DecidableEq β] : DecidableEq (Except α β) :=
  fun a b =>
  match a, b with
  | .ok x, .ok y => if h : x = y then isTrue (by rw [h]) else isFalse (by simpa using h)
  | .error x, .error y => if h : x = y then isTrue (by rw [h]) else isFalse (by simpa using h)
  | .ok _, .error _ => isFalse (by simp)
  | .error _, .ok _ => isFalse (by simp)

/-- The quotient `virtual_sol * virtual_token / (virtual_sol + amount)` is
strictly below the virtual token reserves once those are positive, so the
`+ 1` still stays within them. -/
lemma div_succ_le_reserves (vsol vt amt : ℕ) (hvt : 1 ≤ vt) (hamt : 0 < amt) :
    vsol * vt / (vsol + amt) + 1 ≤ vt := by
  have hpos : 0 < vsol + amt := by omega
  have hlt : vsol * vt < vt * (vsol + amt) := by
    have h2 : 0 < vt * amt := Nat.mul_pos hvt hamt
    calc vsol * vt = vt * vsol := Nat.mul_comm _ _
      _ < vt * vsol + vt * amt := Nat.lt_add_of_pos_right h2
      _ = vt * (vsol + amt) := (Nat.mul_add vt vsol amt).symm
  exact Nat.succ_le_of_lt ((Nat.div_lt_iff_lt_mul hpos).mpr hlt)

/-- On a priceable curve (not complete, at least one virtual token) the
price function always returns a successful value. -/
lemma get_buy_price_ok (c : BondingCurveAccount) (amt : ℕ)
    (hc : c.complete = false) (hvt : 1 ≤ c.virtual_token_reserves) :
    ∃ v : ℕ, c.get_buy_price amt = some (.ok v) := by
  unfold BondingCurveAccount.get_buy_price
  rcases Nat.eq_zero_or_pos amt with h0 | h0
  · exact ⟨0, by simp [hc, h0]⟩
  · have hr := div_succ_le_reserves c.virtual_sol_reserves c.virtual_token_reserves
      amt hvt h0
    simp only [hc, Bool.false_eq_true, if_false, Nat.pos_iff_ne_zero.mp h0, hr, if_true]
    exact ⟨_, rfl⟩

/-- C9: on a non-complete snapshot with at least one virtual token, the
rounded quotient `r` never exceeds the virtual token reserves, so the
128-bit subtraction in `get_buy_price` cannot underflow and the function is
total; conversely, the underflowing subtraction is reached exactly when the
curve is not complete, the input is positive and the virtual token reserves
are zero. -/
theorem get_buy_price_no_underflow (c : BondingCurveAccount) (amt : ℕ) :
    (c.complete = false → 1 ≤ c.virtual_token_reserves →
      (0 < amt →
        c.virtual_sol_reserves * c.virtual_token_reserves /
            (c.virtual_sol_reserves + amt) + 1 ≤ c.virtual_token_reserves) ∧
      (c.get_buy_price amt).isSome = true) ∧
    (c.get_buy_price amt = none ↔
      c.complete = false ∧ 0 < amt ∧ c.virtual_token_reserves = 0) := by
  constructor
  · intro hc hvt
    refine ⟨fun hamt => div_succ_le_reserves _ _ _ hvt hamt, ?_⟩
    unfold BondingCurveAccount.get_buy_price
    rcases Nat.eq_zero_or_pos amt with h0 | h0
    · simp [hc, h0]
    · have hr := div_succ_le_reserves c.virtual_sol_reserves c.virtual_token_reserves
        amt hvt h0
      simp [hc, Nat.pos_iff_ne_zero.mp h0, hr]
  · unfold BondingCurveAccount.get_buy_price
    cases hcb : c.complete
    · rcases Nat.eq_zero_or_pos amt with h0 | h0
      · simp [h0]
      · rcases Nat.eq_zero_or_pos c.virtual_token_reserves with hvt | hvt
        · have hng : ¬ (c.virtual_sol_reserves * c.virtual_token_reserves /
              (c.virtual_sol_reserves + amt) + 1 ≤ c.virtual_token_reserves) := by
            rw [hvt]
            exact Nat.not_succ_le_zero _
          simp [Nat.pos_iff_ne_zero.mp h0, hng, hvt, h0]
        · have hr := div_succ_le_reserves c.virtual_sol_reserves c.virtual_token_reserves
            amt hvt h0
          simp [Nat.pos_iff_ne_zero.mp h0, hr, Nat.pos_iff_ne_zero.mp hvt]
    · simp

/-- C9 witness: on the Scenario A curve with a 1-SOL input the rounded
quotient respects the bound and the price function returns a value. -/
theorem get_buy_price_no_underflow_witness :
    (scenarioCurve.get_buy_price 1000000000).isSome = true :=
  ((get_buy_price_no_underflow scenarioCurve 1000000000).1 rfl (by decide)).2

/-- C3 counterexample: a decodable non-complete snapshot with zero virtual
token reserves and a positive input reaches the underflowing 128-bit
subtraction (an arithmetic panic), so `get_buy_price` does not return the
claimed minimum there. -/
theorem get_buy_price_zero_reserves_counterexample :
    zeroVtCurve.complete = false ∧ 0 < zeroVtCurve.real_token_reserves ∧
    zeroVtCurve.get_buy_price 1 = none := by decide

/-- C3 (amended): `get_buy_price` fails with `BondingCurveComplete` on a
complete curve regardless of amount, returns 0 for zero input, and — for a
non-complete curve with positive input and at least one virtual token —
returns `min (virtual_token - (virtual_sol * virtual_token / (virtual_sol +
input) + 1)) real_token_reserves`; every successful result is bounded by
the real token reserves. -/
theorem get_buy_price_spec (c : BondingCurveAccount) (amt : ℕ) (hwf : c.WF) :
    (c.complete = true → c.get_buy_price amt = some (.error .BondingCurveComplete)) ∧
    (c.complete = false → amt = 0 → c.get_buy_price amt = some (.ok 0)) ∧
    (c.complete = false → 0 < amt → 1 ≤ c.virtual_token_reserves →
      c.get_buy_price amt = some (.ok (min
        (c.virtual_token_reserves -
          (c.virtual_sol_reserves * c.virtual_token_reserves /
            (c.virtual_sol_reserves + amt) + 1))
        c.real_token_reserves))) ∧
    (∀ v : ℕ, c.get_buy_price amt = some (.ok v) → v ≤ c.real_token_reserves) := by
  obtain ⟨-, hvt64, -, -, -, -⟩ := hwf
  refine ⟨?_, ?_, ?_, ?_⟩
  · intro hc; unfold BondingCurveAccount.get_buy_price; simp [hc]
  · intro hc h0; unfold BondingCurveAccount.get_buy_price; simp [hc, h0]
  · intro hc hamt hvt
    have hr := div_succ_le_reserves c.virtual_sol_reserves c.virtual_token_reserves
      amt hvt hamt
    have hs : c.virtual_token_reserves -
        (c.virtual_sol_reserves * c.virtual_token_reserves /
          (c.virtual_sol_reserves + amt) + 1) < U64 :=
      Nat.lt_of_le_of_lt (Nat.sub_le _ _) hvt64
    unfold BondingCurveAccount.get_buy_price
    simp only [hc, Bool.false_eq_true, if_false, Nat.pos_iff_ne_zero.mp hamt, hr, if_true,
      Nat.mod_eq_of_lt hs]
    congr 2
    rcases Nat.lt_or_ge (c.virtual_token_reserves -
        (c.virtual_sol_reserves * c.virtual_token_reserves /
          (c.virtual_sol_reserves + amt) + 1)) c.real_token_reserves with h | h
    · simp [h, Nat.min_eq_left (Nat.le_of_lt h)]
    · simp [Nat.not_lt.mpr h, Nat.min_eq_right h]
  · intro v hv
    unfold BondingCurveAccount.get_buy_price at hv
    cases hcb : c.complete
    · rw [hcb] at hv
      simp only [Bool.false_eq_true, if_false] at hv
      rcases Nat.eq_zero_or_pos amt with h0 | h0
      · simp [h0] at hv; omega
      · simp only [Nat.pos_iff_ne_zero.mp h0, if_false] at hv
        by_cases hr : c.virtual_sol_reserves * c.virtual_token_reserves /
            (c.virtual_sol_reserves + amt) + 1 ≤ c.virtual_token_reserves
        · simp only [hr, if_true, Option.some.injEq, Except.ok.injEq] at hv
          split at hv <;> omega
        · simp [hr] at hv
    · rw [hcb] at hv; simp at hv

/-- C3 witness: Scenario B — a 1-SOL buy on the Scenario A curve returns
32258064 tokens, which is positive and bounded by the real reserves. -/
theorem get_buy_price_spec_witness :
    scenarioCurve.get_buy_price 1000000000 = some (.ok 32258064) ∧
    0 < 32258064 ∧ 32258064 ≤ scenarioCurve.real_token_reserves := by
  have h := (get_buy_price_spec scenarioCurve 1000000000 (by decide)).2.2.1
    rfl (by decide) (by decide)
  exact ⟨by rw [h]; decide, by decide, by decide⟩

/-- The Scenario A curve progress, computed once and shared: 20 percent. -/
lemma scenario_progress_eq : scenarioCurve.get_curve_progress = some 20 := by
  unfold BondingCurveAccount.get_curve_progress scenarioCurve
  norm_num

/-- C4 counterexample: on a snapshot whose 128-bit market-cap quotient
exceeds the `u64` range, the `as u64` cast truncates and the function
returns 1 rather than the claimed floor. -/
theorem get_market_cap_sol_truncated_counterexample :
    hugeCurve.get_market_cap_sol = 1 ∧
    hugeCurve.token_total_supply * hugeCurve.virtual_sol_reserves /
        hugeCurve.virtual_token_reserves = (2 ^ 64 - 1) * (2 ^ 64 - 1) ∧
    hugeCurve.get_market_cap_sol ≠
      hugeCurve.token_total_supply * hugeCurve.virtual_sol_reserves /
        hugeCurve.virtual_token_reserves := by decide

/-- C4 (amended): `get_market_cap_sol` returns 0 when the virtual token
reserves are 0, and otherwise the 128-bit quotient
`total_supply * virtual_sol / virtual_token` truncated to 64 bits — equal
to the plain floor whenever that floor fits in a `u64`; on the Scenario A
curve it returns 30000000000 and the progress percentage is exactly 20. -/
theorem get_market_cap_sol_spec (c : BondingCurveAccount) :
    (c.virtual_token_reserves = 0 → c.get_market_cap_sol = 0) ∧
    (c.virtual_token_reserves ≠ 0 →
      c.get_market_cap_sol =
        (c.token_total_supply * c.virtual_sol_reserves / c.virtual_token_reserves) % U64) ∧
    (c.virtual_token_reserves ≠ 0 →
      c.token_total_supply * c.virtual_sol_reserves / c.virtual_token_reserves < U64 →
      c.get_market_cap_sol =
        c.token_total_supply * c.virtual_sol_reserves / c.virtual_token_reserves) ∧
    scenarioCurve.get_market_cap_sol = 30000000000 ∧
    scenarioCurve.get_curve_progress = some 20 := by
  refine ⟨?_, ?_, ?_, by decide, ?_⟩
  · intro h; simp [BondingCurveAccount.get_market_cap_sol, h]
  · intro h; simp [BondingCurveAccount.get_market_cap_sol, h]
  · intro h hlt
    simp [BondingCurveAccount.get_market_cap_sol, h, Nat.mod_eq_of_lt hlt]
  · exact scenario_progress_eq

/-- C4 witness: on the Scenario A curve the quotient fits in a `u64`, so
the returned market cap is the exact floor. -/
theorem get_market_cap_sol_spec_witness :
    scenarioCurve.get_market_cap_sol =
      scenarioCurve.token_total_supply * scenarioCurve.virtual_sol_reserves /
        scenarioCurve.virtual_token_reserves :=
  (get_market_cap_sol_spec scenarioCurve).2.2.1 (by decide) (by decide)

/-- C10: when the real token reserves do not exceed the total supply, the
`u64` subtraction in `get_curve_progress` cannot underflow, the function
returns a value and that value lies between 0 and 100; a snapshot with
positive total supply smaller than the real reserves reaches the unguarded
subtraction. -/
theorem get_curve_progress_spec (c : BondingCurveAccount) :
    (c.real_token_reserves ≤ c.token_total_supply →
      c.get_curve_progress ≠ none ∧
      ∀ q : ℚ, c.get_curve_progress = some q → 0 ≤ q ∧ q ≤ 100) ∧
    (0 < c.token_total_supply → c.token_total_supply < c.real_token_reserves →
      c.get_curve_progress = none) := by
  constructor
  · intro hle
    unfold BondingCurveAccount.get_curve_progress
    rcases Nat.eq_zero_or_pos c.token_total_supply with h0 | h0
    · refine ⟨by simp [h0], ?_⟩
      intro q hq
      simp only [h0, if_true, Option.some.injEq] at hq
      subst hq
      norm_num
    · have h0' := Nat.pos_iff_ne_zero.mp h0
      refine ⟨by simp [h0', hle], ?_⟩
      intro q hq
      simp only [h0', if_false, hle, if_true, Option.some.injEq] at hq
      subst hq
      have hts : (0 : ℚ) < (c.token_total_supply : ℚ) := by
        exact_mod_cast h0
      constructor
      · positivity
      · have hnum : ((c.token_total_supply - c.real_token_reserves : ℕ) : ℚ) ≤
            (c.token_total_supply : ℚ) := by
          exact_mod_cast Nat.sub_le _ _
        have hdiv : ((c.token_total_supply - c.real_token_reserves : ℕ) : ℚ) /
            (c.token_total_supply : ℚ) ≤ 1 := (div_le_one hts).mpr hnum
        calc ((c.token_total_supply - c.real_token_reserves : ℕ) : ℚ) /
              (c.token_total_supply : ℚ) * 100 ≤ 1 * 100 := by
              exact mul_le_mul_of_nonneg_right hdiv (by norm_num)
          _ = 100 := by norm_num
  · intro hpos hlt
    unfold BondingCurveAccount.get_curve_progress
    have h0 : ¬ c.token_total_supply = 0 := by omega
    have h1 : ¬ c.real_token_reserves ≤ c.token_total_supply := by omega
    simp [h0, h1]

/-- C10 witness: on the Scenario A curve the reserves are below the supply,
the function returns a value, and the returned 20 lies within the bounds. -/
theorem get_curve_progress_spec_witness :
    scenarioCurve.get_curve_progress ≠ none ∧ (0 : ℚ) ≤ 20 ∧ (20 : ℚ) ≤ 100 :=
  ⟨((get_curve_progress_spec scenarioCurve).1 (by decide)).1,
   ((get_curve_progress_spec scenarioCurve).1 (by decide)).2 20 scenario_progress_eq⟩

/-- C6: the `Datasize` filter constant of the subscription request is 105
bytes, while the serialized bonding-curve account layout — which the code
comment claims the constant equals — is 81 bytes. -/
theorem subscription_datasize_mismatch :
    subscriptionDatasizeFilter = 105 ∧ bondingCurveAccountSize = 81 ∧
    subscriptionDatasizeFilter ≠ bondingCurveAccountSize := by decide

/-- Outcome of one independent RPC account read plus decode, the effectful
part of an attempt inside `TransactionExecutor::fetch_bonding_curve_data`:
the read can fail, or succeed with bytes that fail to decode, or succeed
with a decodable bonding-curve account. -/
inductive AttemptResult where
  | fetchErr
  | decodeErr
  | ok (data : BondingCurveAccount)

/-- The fixed retry schedule `[0, 100, 200]` of inter-attempt delays in
milliseconds (src/utils/transaction.rs line 61). -/
def retryDelays : List ℕ := [0, 100, 200]

/-- One entry of the retry trace: the attempt index and the delay slept
before that attempt. -/
structure FetchStep where
  attempt : ℕ
  delay_ms : ℕ
deriving DecidableEq, Repr

/-- The retry loop of `TransactionExecutor::fetch_bonding_curve_data`
(src/utils/transaction.rs lines 56-96), with the network modelled by an
oracle giving each attempt's outcome.  Returns the trace of attempts made
together with the function's result.  A fetch failure on the last attempt
returns the classified `RpcError`; the unreachable fall-through after the
loop is the `[]` case. -/
def fetchLoop (oracle : ℕ → AttemptResult) :
    ℕ → List ℕ → List FetchStep × Except SniperError BondingCurveAccount
  | _, [] => ([], .error .RpcError)
  | attempt, d :: rest =>
    let step : FetchStep := ⟨attempt, d⟩
    match oracle attempt with
    | .ok data => ([step], .ok data)
    | .decodeErr => ([step], .error .SerializationError)
    | .fetchErr =>
      if rest.isEmpty then ([step], .error .RpcError)
      else
        let next := fetchLoop oracle (attempt + 1) rest
        (step :: next.1, next.2)

/-- `TransactionExecutor::fetch_bonding_curve_data`, run over the fixed
schedule from attempt 0. -/
def fetch_bonding_curve_data (oracle : ℕ → AttemptResult) :
    List FetchStep × Except SniperError BondingCurveAccount :=
  fetchLoop oracle 0 retryDelays

/-- C5: the retry primitive makes at most 3 attempts, the delays slept are
the prefix `[0, 100, 200].take n` of the fixed schedule and the attempt
indices are `0, 1, ...`; a success on attempt 0, or on attempt 1 after one
fetch failure, or on attempt 2 after two fetch failures, returns the
decoded account immediately with exactly that many attempts made; three
fetch failures return the classified `RpcError` after exactly 3 attempts
and no further attempt is consulted. -/
theorem fetch_retry_spec (oracle : ℕ → AttemptResult) :
    (fetch_bonding_curve_data oracle).1.length ≤ 3 ∧
    ((fetch_bonding_curve_data oracle).1.map FetchStep.delay_ms =
      retryDelays.take (fetch_bonding_curve_data oracle).1.length) ∧
    ((fetch_bonding_curve_data oracle).1.map FetchStep.attempt =
      List.range (fetch_bonding_curve_data oracle).1.length) ∧
    (∀ d, oracle 0 = .ok d →
      fetch_bonding_curve_data oracle = ([⟨0, 0⟩], .ok d)) ∧
    (∀ d, oracle 0 = .fetchErr → oracle 1 = .ok d →
      fetch_bonding_curve_data oracle = ([⟨0, 0⟩, ⟨1, 100⟩], .ok d)) ∧
    (∀ d, oracle 0 = .fetchErr → oracle 1 = .fetchErr → oracle 2 = .ok d →
      fetch_bonding_curve_data oracle =
        ([⟨0, 0⟩, ⟨1, 100⟩, ⟨2, 200⟩], .ok d)) ∧
    (oracle 0 = .fetchErr → oracle 1 = .fetchErr → oracle 2 = .fetchErr →
      fetch_bonding_curve_data oracle =
        ([⟨0, 0⟩, ⟨1, 100⟩, ⟨2, 200⟩], .error .RpcError)) := by
  rcases h0 : oracle 0 with _ | _ | d0
  · rcases h1 : oracle 1 with _ | _ | d1
    · rcases h2 : oracle 2 with _ | _ | d2 <;>
        simp [fetch_bonding_curve_data, fetchLoop, retryDelays, h0, h1, h2] <;> decide
    · simp [fetch_bonding_curve_data, fetchLoop, retryDelays, h0, h1] <;> decide
    · simp [fetch_bonding_curve_data, fetchLoop, retryDelays, h0, h1] <;> decide
  · simp [fetch_bonding_curve_data, fetchLoop, retryDelays, h0] <;> decide
  · simp [fetch_bonding_curve_data, fetchLoop, retryDelays, h0] <;> decide

/-- The oracle of the spec's retry test: two fetch failures followed by a
successful decoded read. -/
def twoFailOracle : ℕ → AttemptResult := fun i =>
  if i < 2 then .fetchErr else .ok scenarioCurve

/-- C5 witness: two simulated failures followed by one success return the
decoded account after exactly three attempts. -/
theorem fetch_retry_spec_witness :
    fetch_bonding_curve_data twoFailOracle =
      ([⟨0, 0⟩, ⟨1, 100⟩, ⟨2, 200⟩], .ok scenarioCurve) :=
  (fetch_retry_spec twoFailOracle).2.2.2.2.2.1 scenarioCurve rfl rfl rfl

/-- Runtime configuration (src/common/config.rs).  The `f64` USD threshold
is embedded as a rational. -/
structure Config where
  grpc_endpoint : String
  rpc_endpoint : String
  market_cap_threshold_usd : ℚ
  max_slippage_bps : ℕ
  buy_amount_sol : ℕ
  priority_fee_sol : ℕ
  compute_unit_limit : ℕ
deriving DecidableEq, Repr

/-- The `Config::default()` values (src/common/config.rs lines 23-35). -/
def Config.default : Config :=
  { grpc_endpoint := ""
    rpc_endpoint := ""
    market_cap_threshold_usd := 8000
    max_slippage_bps := 500
    buy_amount_sol := 50000000
    priority_fee_sol := 5000000
    compute_unit_limit := 200000 }

/-- Checked Rust `u64` addition: `none` models the overflow panic. -/
def checkedAdd64 (a b : ℕ) : Option ℕ := if a + b < U64 then some (a + b) else none

/-- Checked Rust `u64` multiplication: `none` models the overflow panic. -/
def checkedMul64 (a b : ℕ) : Option ℕ := if a * b < U64 then some (a * b) else none

/-- The numeric fields a built buy transaction carries: the expected token
output, the slippage-bounded maximum cost of the buy instruction, and the
two compute-budget instruction arguments. -/
structure BuyTxParams where
  expected_tokens : ℕ
  max_sol_cost : ℕ
  priority_fee_microlamports : ℕ
  compute_unit_limit : ℕ
deriving DecidableEq, Repr

/-- The arithmetic core of `TransactionExecutor::build_buy_transaction`
(src/utils/transaction.rs lines 98-161): price the buy via `get_buy_price`
(its error propagates), compute `max_sol_cost = sol_amount + sol_amount *
max_slippage_bps / 10000` and the priority fee `priority_fee_sol * 1000000
/ compute_unit_limit` in `u64` arithmetic.  Account layout, signing and the
blockhash fetch are elided; an arithmetic panic (overflow, or division by a
zero compute-unit limit) is `none`. -/
def build_buy_transaction (cfg : Config) (curve : BondingCurveAccount)
    (sol_amount : ℕ) : Option (Except SniperError BuyTxParams) :=
  match curve.get_buy_price sol_amount with
  | none => none
  | some (.error e) => some (.error e)
  | some (.ok expected_tokens) =>
    match checkedMul64 sol_amount cfg.max_slippage_bps with
    | none => none
    | some p =>
      match checkedAdd64 sol_amount (p / 10000) with
      | none => none
      | some max_sol_cost =>
        if cfg.compute_unit_limit = 0 then none
        else
          match checkedMul64 cfg.priority_fee_sol 1000000 with
          | none => none
          | some q =>
            some (.ok
              { expected_tokens := expected_tokens
                max_sol_cost := max_sol_cost
                priority_fee_microlamports := q / cfg.compute_unit_limit
                compute_unit_limit := cfg.compute_unit_limit })

/-- C7 counterexample: with the default configuration and the Scenario A
curve, a base amount of `2 ^ 62` lamports overflows the `u64` product
`sol_amount * max_slippage_bps`, so the builder panics instead of producing
the claimed slippage bound. -/
theorem build_buy_transaction_overflow_counterexample :
    build_buy_transaction Config.default scenarioCurve (2 ^ 62) = none := by decide

/-- C7 (amended): whenever the curve is priceable (not complete, at least
one virtual token) and the `u64` arithmetic does not overflow — the product
`sol_amount * max_slippage_bps`, the slippage-bounded sum and the product
`priority_fee_sol * 1000000` all fit in a `u64` — and the compute-unit
limit is nonzero, the builder produces parameters with `max_sol_cost =
sol_amount + sol_amount * max_slippage_bps / 10000` and a priority-fee
price of `priority_fee_sol * 1000000 / compute_unit_limit`. -/
theorem build_buy_transaction_spec (cfg : Config) (curve : BondingCurveAccount)
    (sol_amount : ℕ) (hc : curve.complete = false)
    (hvt : 1 ≤ curve.virtual_token_reserves)
    (hmul : sol_amount * cfg.max_slippage_bps < U64)
    (hadd : sol_amount + sol_amount * cfg.max_slippage_bps / 10000 < U64)
    (hcul : cfg.compute_unit_limit ≠ 0)
    (hfee : cfg.priority_fee_sol * 1000000 < U64) :
    ∃ p : BuyTxParams, build_buy_transaction cfg curve sol_amount = some (.ok p) ∧
      p.max_sol_cost = sol_amount + sol_amount * cfg.max_slippage_bps / 10000 ∧
      p.priority_fee_microlamports =
        cfg.priority_fee_sol * 1000000 / cfg.compute_unit_limit := by
  obtain ⟨v, hv⟩ := get_buy_price_ok curve sol_amount hc hvt
  refine ⟨{ expected_tokens := v
            max_sol_cost := sol_amount + sol_amount * cfg.max_slippage_bps / 10000
            priority_fee_microlamports :=
              cfg.priority_fee_sol * 1000000 / cfg.compute_unit_limit
            compute_unit_limit := cfg.compute_unit_limit }, ?_, rfl, rfl⟩
  unfold build_buy_transaction checkedMul64 checkedAdd64
  rw [hv]
  simp only [hmul, hadd, hfee, hcul, if_true, if_false, ite_true, ite_false]

/-- C7 witness: default configuration, Scenario A curve, a 1-SOL buy — the
builder returns the slippage bound and priority fee of the claim. -/
theorem build_buy_transaction_spec_witness :
    build_buy_transaction Config.default scenarioCurve 1000000000 =
      some (.ok
        { expected_tokens := 32258064
          max_sol_cost := 1050000000
          priority_fee_microlamports := 25000000
          compute_unit_limit := 200000 }) := by
  obtain ⟨p, hp, hcost, hfee⟩ := build_buy_transaction_spec Config.default scenarioCurve
    1000000000 rfl (by decide) (by decide) (by decide) (by decide) (by decide)
  decide

/-- Token record (src/accounts/token_info.rs).  Pubkeys are opaque `ℕ`
identifiers; the mint identifier also stands for the `mint.to_string()`
key used in the engine's maps. -/
structure TokenInfo where
  mint : ℕ
  name : String
  symbol : String
  creator : ℕ
  uri : String
  bonding_curve : ℕ
  creation_signature : String
  created_at : ℕ
deriving DecidableEq, Repr

/-- Derived market view (src/common/market_data.rs); the wall-clock
`last_updated` field is elided. -/
structure MarketData where
  token_info : TokenInfo
  bonding_curve_data : BondingCurveAccount
  current_market_cap_sol : ℕ
  price_per_token_sol : ℕ
  volume_24h : Option ℕ
deriving DecidableEq, Repr

/-- `MarketData::new` (src/common/market_data.rs lines 24-43). -/
def MarketData.new (token_info : TokenInfo) (bonding_curve_data : BondingCurveAccount) :
    MarketData :=
  let current_market_cap_sol := bonding_curve_data.get_market_cap_sol
  { token_info := token_info
    bonding_curve_data := bonding_curve_data
    current_market_cap_sol := current_market_cap_sol
    price_per_token_sol :=
      if 0 < bonding_curve_data.token_total_supply then
        current_market_cap_sol / bonding_curve_data.token_total_supply
      else 0
    volume_24h := none }

/-- The domain-event sum type (src/common/events.rs). -/
inductive SniperEvent where
  | TokenCreated (token_info : TokenInfo)
  | BondingCurveUpdated (bonding_curve : ℕ) (data : BondingCurveAccount)
  | MarketCapUpdated (market_data : MarketData)
  | BuyTriggered (token_info : TokenInfo) (market_cap : ℕ) (buy_amount : ℕ)
  | BuyExecuted (token_info : TokenInfo) (transaction_signature : String)
      (amount_spent : ℕ) (tokens_received : ℕ)
  | BuyFailed (token_info : TokenInfo) (error : String) (retry_count : ℕ)
  | ConnectionStatusChanged (connected : Bool) (endpoint : String)
  | StatsUpdate (tokens_tracked : ℕ) (successful_buys : ℕ) (failed_buys : ℕ)
      (uptime_seconds : ℕ)
deriving DecidableEq, Repr

/-- Which constructors `Sniper::handle_event` (src/lib.rs lines 114-134)
matches with a named arm; the remaining constructors fall to the final
wildcard arm `_ => Ok(())` of that `match`. -/
def matchedByNamedArm : SniperEvent → Bool
  | .TokenCreated _ => true
  | .BondingCurveUpdated _ _ => true
  | .MarketCapUpdated _ => true
  | .BuyTriggered _ _ _ => true
  | _ => false

/-- The engine's effectful collaborators, as oracles: the USD conversion of
the external price service (its error payload elided), the RPC curve fetch
used by the fallback path, and `TransactionExecutor::execute_buy` returning
a transaction signature (an opaque `ℕ`). -/
structure Env where
  calculate_market_cap_usd : ℕ → Except Unit ℚ
  fetch_bonding_curve_data : ℕ → Except SniperError BondingCurveAccount
  execute_buy : TokenInfo → ℕ → Except SniperError ℕ

/-- The mutable fields of `Sniper` (src/lib.rs lines 22-34).  The hash map
and set fields are association lists / lists keyed by the opaque ids;
`halted` models the `std::process::exit(0)` of test mode. -/
structure SniperState where
  config : Config
  tracked_tokens : List (ℕ × TokenInfo)
  bought_tokens : List ℕ
  bonding_curve_cache : List (ℕ × BondingCurveAccount)
  wallet : Option ℕ
  test_mode_single_buy : Bool
  has_bought_once : Bool
  halted : Bool
deriving DecidableEq, Repr

/-- `HashMap::insert`: replace any binding of the key, add the new one. -/
def mapInsert {β : Type} (k : ℕ) (v : β) (l : List (ℕ × β)) : List (ℕ × β) :=
  (k, v) :: l.filter (fun p => p.1 ≠ k)

/-- `HashMap::remove`. -/
def mapRemove {β : Type} (k : ℕ) (l : List (ℕ × β)) : List (ℕ × β) :=
  l.filter (fun p => p.1 ≠ k)

/-- `HashSet::insert`. -/
def setInsert (k : ℕ) (s : List ℕ) : List ℕ := if k ∈ s then s else k :: s

/-- `HashSet::remove`. -/
def setRemove (k : ℕ) (s : List ℕ) : List ℕ := s.erase k

/-- Record of one `ExecutionLayer.execute_buy` invocation: the token and
amount passed, the bought-set as it stood at the moment of the call, and
the call's outcome. -/
structure ExecCall where
  token : TokenInfo
  amount : ℕ
  bought_at_call : List ℕ
  result : Except SniperError ℕ
deriving DecidableEq, Repr

/-- Result of one event-handler invocation: the successor state, the events
sent on the engine's own channel, the `execute_buy` invocations made, and
the handler's return value. -/
structure HOut where
  state : SniperState
  emitted : List SniperEvent
  execs : List ExecCall
  ret : Except SniperError Unit
deriving DecidableEq, Repr

/-- `Sniper::check_market_cap` (src/lib.rs lines 195-294): cached path
first, RPC fallback otherwise, identical threshold logic on both. -/
def check_market_cap (env : Env) (st : SniperState) (token_info : TokenInfo) : HOut :=
  match st.bonding_curve_cache.lookup token_info.bonding_curve with
  | some cached_data =>
    let market_data := MarketData.new token_info cached_data
    match env.calculate_market_cap_usd market_data.current_market_cap_sol with
    | .ok market_cap_usd =>
      if st.config.market_cap_threshold_usd ≤ market_cap_usd then
        if token_info.mint ∉ st.bought_tokens then
          if st.test_mode_single_buy ∧ st.has_bought_once then ⟨st, [], [], .ok ()⟩
          else ⟨st, [.BuyTriggered token_info market_data.current_market_cap_sol
                      st.config.buy_amount_sol], [], .ok ()⟩
        else ⟨st, [], [], .ok ()⟩
      else ⟨st, [], [], .ok ()⟩
    | .error _ => ⟨st, [], [], .ok ()⟩
  | none =>
    match env.fetch_bonding_curve_data token_info.bonding_curve with
    | .ok bonding_curve_data =>
      let market_data := MarketData.new token_info bonding_curve_data
      match env.calculate_market_cap_usd market_data.current_market_cap_sol with
      | .ok market_cap_usd =>
        if st.config.market_cap_threshold_usd ≤ market_cap_usd then
          if token_info.mint ∉ st.bought_tokens then
            if st.test_mode_single_buy ∧ st.has_bought_once then ⟨st, [], [], .ok ()⟩
            else ⟨st, [.BuyTriggered token_info market_data.current_market_cap_sol
                        st.config.buy_amount_sol], [], .ok ()⟩
          else ⟨st, [], [], .ok ()⟩
        else ⟨st, [], [], .ok ()⟩
      | .error _ => ⟨st, [], [], .ok ()⟩
    | .error _ => ⟨st, [], [], .ok ()⟩

/-- `Sniper::handle_token_creation` (src/lib.rs lines 136-143). -/
def handle_token_creation (env : Env) (st : SniperState) (token_info : TokenInfo) : HOut :=
  let st1 := { st with
    tracked_tokens := mapInsert token_info.mint token_info st.tracked_tokens }
  check_market_cap env st1 token_info

/-- `Sniper::handle_bonding_curve_update` (src/lib.rs lines 145-193):
overwrite the cache entry, then run the instant threshold check on the
first tracked token whose derived curve address matches. -/
def handle_bonding_curve_update (env : Env) (st : SniperState)
    (bonding_curve : ℕ) (data : BondingCurveAccount) : HOut :=
  let st1 := { st with
    bonding_curve_cache := mapInsert bonding_curve data st.bonding_curve_cache }
  match (st1.tracked_tokens.map Prod.snd).find?
      (fun token_info => token_info.bonding_curve == bonding_curve) with
  | none => ⟨st1, [], [], .ok ()⟩
  | some token_info =>
    match st1.bonding_curve_cache.lookup bonding_curve with
    | none => ⟨st1, [], [], .ok ()⟩
    | some cached_data =>
      let market_data := MarketData.new token_info cached_data
      match env.calculate_market_cap_usd market_data.current_market_cap_sol with
      | .ok market_cap_usd =>
        if st1.config.market_cap_threshold_usd ≤ market_cap_usd ∧
            token_info.mint ∉ st1.bought_tokens then
          if st1.test_mode_single_buy ∧ st1.has_bought_once then ⟨st1, [], [], .ok ()⟩
          else ⟨st1, [.BuyTriggered token_info market_data.current_market_cap_sol
                       st1.config.buy_amount_sol], [], .ok ()⟩
        else ⟨st1, [], [], .ok ()⟩
      | .error _ => ⟨st1, [], [], .ok ()⟩

/-- `Sniper::handle_market_cap_update` (src/lib.rs lines 296-301). -/
def handle_market_cap_update (st : SniperState) (_market_data : MarketData) : HOut :=
  ⟨st, [], [], .ok ()⟩

/-- `Sniper::handle_buy_trigger` (src/lib.rs lines 303-365): re-check the
bought-set, insert the mint before invoking execution, roll the insertion
back on failure (or when no wallet is configured), and on success mark the
bought-once flag, drop the token and — in test mode — halt. -/
def handle_buy_trigger (env : Env) (st : SniperState) (token_info : TokenInfo)
    (_market_cap : ℕ) (buy_amount : ℕ) : HOut :=
  if token_info.mint ∈ st.bought_tokens then ⟨st, [], [], .ok ()⟩
  else if st.test_mode_single_buy ∧ st.has_bought_once then ⟨st, [], [], .ok ()⟩
  else
    let bought1 := setInsert token_info.mint st.bought_tokens
    match st.wallet with
    | some _ =>
      let result := env.execute_buy token_info buy_amount
      let call : ExecCall := ⟨token_info, buy_amount, bought1, result⟩
      match result with
      | .ok _ =>
        ⟨{ st with
            bought_tokens := bought1
            has_bought_once := true
            tracked_tokens := mapRemove token_info.mint st.tracked_tokens
            halted := st.test_mode_single_buy }, [], [call], .ok ()⟩
      | .error _ =>
        ⟨{ st with bought_tokens := setRemove token_info.mint bought1 }, [], [call], .ok ()⟩
    | none =>
      ⟨{ st with bought_tokens := setRemove token_info.mint bought1 }, [], [], .ok ()⟩

/-- `Sniper::handle_event` (src/lib.rs lines 114-134): dispatch on the four
named arms; every other constructor falls to the wildcard arm. -/
def handle_event (env : Env) (st : SniperState) : SniperEvent → HOut
  | .TokenCreated token_info => handle_token_creation env st token_info
  | .BondingCurveUpdated bonding_curve data =>
      handle_bonding_curve_update env st bonding_curve data
  | .MarketCapUpdated market_data => handle_market_cap_update st market_data
  | .BuyTriggered token_info market_cap buy_amount =>
      handle_buy_trigger env st token_info market_cap buy_amount
  | _ => ⟨st, [], [], .ok ()⟩

/-- `Sniper::process_events` (src/lib.rs lines 105-112): the single
consumer pops events in FIFO order from the unbounded channel; events the
handlers send land at the back of the queue; a halted process consumes
nothing further.  `fuel` bounds the recursion (the loop itself only stops
on channel closure); each step consumes one unit.  Returns the final state
together with all events emitted and all `execute_buy` invocations made. -/
def processEvents (env : Env) :
    ℕ → SniperState → List SniperEvent → SniperState × List SniperEvent × List ExecCall
  | 0, st, _ => (st, [], [])
  | _ + 1, st, [] => (st, [], [])
  | fuel + 1, st, e :: rest =>
    if st.halted then (st, [], [])
    else
      let o := handle_event env st e
      let next := processEvents env fuel o.state (rest ++ o.emitted)
      (next.1, o.emitted ++ next.2.1, o.execs ++ next.2.2)

/-- Number of `execute_buy` invocations for a given mint in a trace. -/
def countExecsFor (m : ℕ) (l : List ExecCall) : ℕ :=
  (l.filter (fun call => call.token.mint == m)).length

/-- Number of `BuyTriggered` events for a given mint in a trace. -/
def countTriggersFor (m : ℕ) : List SniperEvent → ℕ
  | [] => 0
  | .BuyTriggered token_info _ _ :: rest =>
      (if token_info.mint = m then 1 else 0) + countTriggersFor m rest
  | _ :: rest => countTriggersFor m rest

lemma setInsert_self_mem (k : ℕ) (s : List ℕ) : k ∈ setInsert k s := by
  unfold setInsert
  split
  · assumption
  · exact List.mem_cons_self k s

lemma setInsert_mem_iff (m k : ℕ) (s : List ℕ) :
    m ∈ setInsert k s ↔ m = k ∨ m ∈ s := by
  unfold setInsert
  split
  · rename_i h
    constructor
    · exact Or.inr
    · rintro (rfl | hm)
      · exact h
      · exact hm
  · exact List.mem_cons

lemma setRemove_setInsert (k : ℕ) (s : List ℕ) (h : k ∉ s) :
    setRemove k (setInsert k s) = s := by
  unfold setInsert setRemove
  rw [if_neg h]
  exact List.erase_cons_head k s

lemma mem_setRemove_of_ne (m k : ℕ) (s : List ℕ) (h : m ≠ k) :
    m ∈ setRemove k s ↔ m ∈ s := by
  unfold setRemove
  exact List.mem_erase_of_ne h

lemma countExecsFor_nil (m : ℕ) : countExecsFor m [] = 0 := rfl

lemma countExecsFor_append (m : ℕ) (a b : List ExecCall) :
    countExecsFor m (a ++ b) = countExecsFor m a + countExecsFor m b := by
  simp [countExecsFor, List.filter_append]

lemma countExecsFor_singleton (m : ℕ) (call : ExecCall) :
    countExecsFor m [call] = if call.token.mint = m then 1 else 0 := by
  simp only [countExecsFor, List.filter]
  split
  · rename_i h
    rw [if_pos (by simpa using h)]
    rfl
  · rename_i h
    rw [if_neg (by simpa using h)]
    rfl

/-- `check_market_cap` never touches the state and never executes a buy:
both its paths only read and possibly send a trigger event. -/
lemma check_market_cap_frame (env : Env) (st : SniperState) (token_info : TokenInfo) :
    (check_market_cap env st token_info).state = st ∧
    (check_market_cap env st token_info).execs = [] := by
  unfold check_market_cap
  cases st.bonding_curve_cache.lookup token_info.bonding_curve with
  | some cached_data =>
    dsimp only
    cases env.calculate_market_cap_usd
        (MarketData.new token_info cached_data).current_market_cap_sol with
    | ok market_cap_usd => dsimp only; split_ifs <;> exact ⟨rfl, rfl⟩
    | error e => exact ⟨rfl, rfl⟩
  | none =>
    dsimp only
    cases env.fetch_bonding_curve_data token_info.bonding_curve with
    | ok bonding_curve_data =>
      dsimp only
      cases env.calculate_market_cap_usd
          (MarketData.new token_info bonding_curve_data).current_market_cap_sol with
      | ok market_cap_usd => dsimp only; split_ifs <;> exact ⟨rfl, rfl⟩
      | error e => exact ⟨rfl, rfl⟩
    | error e => exact ⟨rfl, rfl⟩

/-- `handle_bonding_curve_update` only rewrites the curve cache: the
bought-set is untouched and no buy is executed. -/
lemma handle_bonding_curve_update_frame (env : Env) (st : SniperState)
    (bonding_curve : ℕ) (data : BondingCurveAccount) :
    (handle_bonding_curve_update env st bonding_curve data).state.bought_tokens =
      st.bought_tokens ∧
    (handle_bonding_curve_update env st bonding_curve data).execs = [] := by
  unfold handle_bonding_curve_update
  dsimp only
  cases (st.tracked_tokens.map Prod.snd).find?
      (fun token_info => token_info.bonding_curve == bonding_curve) with
  | none => exact ⟨rfl, rfl⟩
  | some token_info =>
    dsimp only
    cases (mapInsert bonding_curve data st.bonding_curve_cache).lookup bonding_curve with
    | none => exact ⟨rfl, rfl⟩
    | some cached_data =>
      dsimp only
      cases env.calculate_market_cap_usd
          (MarketData.new token_info cached_data).current_market_cap_sol with
      | ok market_cap_usd => dsimp only; split_ifs <;> exact ⟨rfl, rfl⟩
      | error e => exact ⟨rfl, rfl⟩

/-- One unit of "right to buy" per mint: 1 while the mint is outside the
bought-set, 0 once it is inside. -/
def buyPotential (m : ℕ) (st : SniperState) : ℕ :=
  if m ∈ st.bought_tokens then 0 else 1

/-- The execution oracle always succeeds on tokens of the given mint. -/
def execSucceedsFor (env : Env) (m : ℕ) : Prop :=
  ∀ token_info amt, token_info.mint = m →
    ∃ sig, env.execute_buy token_info amt = .ok sig

lemma handle_buy_trigger_exec_bound (env : Env) (m : ℕ)
    (hsucc : execSucceedsFor env m) (st : SniperState) (token_info : TokenInfo)
    (market_cap buy_amount : ℕ) :
    countExecsFor m (handle_buy_trigger env st token_info market_cap buy_amount).execs +
      buyPotential m (handle_buy_trigger env st token_info market_cap buy_amount).state ≤
      buyPotential m st := by
  unfold handle_buy_trigger
  by_cases hin : token_info.mint ∈ st.bought_tokens
  · simp [hin, countExecsFor_nil]
  · simp only [hin, if_false, if_neg hin]
    by_cases htest : st.test_mode_single_buy ∧ st.has_bought_once
    · simp [htest, countExecsFor_nil]
    · simp only [htest, if_false]
      cases hw : st.wallet with
      | none =>
        simp only [countExecsFor_nil, Nat.zero_add, buyPotential,
          setRemove_setInsert token_info.mint st.bought_tokens hin]
        exact Nat.le_refl _
      | some w =>
        by_cases hm : token_info.mint = m
        · subst hm
          obtain ⟨sig, hsig⟩ := hsucc token_info buy_amount rfl
          rw [hsig]
          simp only [countExecsFor_singleton, eq_self_iff_true, if_true, buyPotential,
            setInsert_self_mem, hin, if_false]
          omega
        · cases hres : env.execute_buy token_info buy_amount with
          | ok sig =>
            simp only [countExecsFor_singleton, hm, if_false, buyPotential]
            have hiff := setInsert_mem_iff m token_info.mint st.bought_tokens
            by_cases hmem : m ∈ st.bought_tokens
            · rw [if_pos (hiff.mpr (Or.inr hmem)), if_pos hmem]
            · rw [if_neg (by
                intro hcon
                rcases hiff.mp hcon with h | h
                · exact hm h.symm
                · exact hmem h), if_neg hmem]
          | error err =>
            simp only [countExecsFor_singleton, hm, if_false, buyPotential,
              setRemove_setInsert token_info.mint st.bought_tokens hin]
            rw [Nat.zero_add]

/-- Each event handled spends at most the mint's remaining buy potential:
an `execute_buy` invocation for the mint consumes it (the mint enters the
bought-set and — executions succeeding — never leaves it). -/
lemma handle_event_exec_bound (env : Env) (m : ℕ) (hsucc : execSucceedsFor env m)
    (st : SniperState) (e : SniperEvent) :
    countExecsFor m (handle_event env st e).execs +
      buyPotential m (handle_event env st e).state ≤ buyPotential m st := by
  cases e with
  | TokenCreated token_info =>
    have h := check_market_cap_frame env
      { st with tracked_tokens := mapInsert token_info.mint token_info st.tracked_tokens }
      token_info
    simp only [handle_event, handle_token_creation, h.1, h.2, countExecsFor_nil,
      Nat.zero_add]
    exact Nat.le_refl _
  | BondingCurveUpdated bonding_curve data =>
    have h := handle_bonding_curve_update_frame env st bonding_curve data
    simp only [handle_event, h.2, countExecsFor_nil, Nat.zero_add, buyPotential, h.1]
    exact Nat.le_refl _
  | MarketCapUpdated market_data =>
    simp [handle_event, handle_market_cap_update, countExecsFor_nil]
  | BuyTriggered token_info market_cap buy_amount =>
    exact handle_buy_trigger_exec_bound env m hsucc st token_info market_cap buy_amount
  | BuyExecuted ti sig spent received => simp [handle_event, countExecsFor_nil]
  | BuyFailed ti err rc => simp [handle_event, countExecsFor_nil]
  | ConnectionStatusChanged connected ep => simp [handle_event, countExecsFor_nil]
  | StatsUpdate a b c d => simp [handle_event, countExecsFor_nil]

/-- Over a whole run, the executions for a mint never exceed its initial
buy potential. -/
lemma processEvents_exec_le (env : Env) (m : ℕ) (hsucc : execSucceedsFor env m) :
    ∀ (fuel : ℕ) (st : SniperState) (queue : List SniperEvent),
      countExecsFor m (processEvents env fuel st queue).2.2 ≤ buyPotential m st := by
  intro fuel
  induction fuel with
  | zero => intro st queue; simp [processEvents, countExecsFor_nil]
  | succ n ih =>
    intro st queue
    cases queue with
    | nil => simp [processEvents, countExecsFor_nil]
    | cons e rest =>
      by_cases hh : st.halted
      · simp [processEvents, hh, countExecsFor_nil]
      · simp only [processEvents, hh, Bool.false_eq_true, if_false]
        rw [countExecsFor_append]
        have h1 := handle_event_exec_bound env m hsucc st e
        have h2 := ih (handle_event env st e).state (rest ++ (handle_event env st e).emitted)
        omega

/-- C1 (amended): in every run of the event loop — any starting state, any
queued event sequence — in which every `execute_buy` invocation for a given
mint succeeds, `execute_buy` is invoked at most once for that mint.  (The
engine may still emit one `BuyTriggered` per qualifying curve update
processed before the first trigger is handled; the bought-set re-check in
the trigger handler collapses them to at most one execution.) -/
theorem at_most_one_buy_execution (env : Env) (m : ℕ) (fuel : ℕ)
    (st : SniperState) (queue : List SniperEvent)
    (hsucc : execSucceedsFor env m) :
    countExecsFor m (processEvents env fuel st queue).2.2 ≤ 1 := by
  have h := processEvents_exec_le env m hsucc fuel st queue
  have hpot : buyPotential m st ≤ 1 := by
    unfold buyPotential
    split <;> omega
  omega

/-- A tracked token whose derived curve address is the opaque id 3. -/
def cxToken : TokenInfo :=
  { mint := 1, name := "t", symbol := "T", creator := 2, uri := ""
    bonding_curve := 3, creation_signature := "", created_at := 0 }

/-- A small qualifying curve snapshot (market cap 1 lamport). -/
def cxCurve : BondingCurveAccount :=
  { discriminator := 0, virtual_token_reserves := 1, virtual_sol_reserves := 1
    real_token_reserves := 1, real_sol_reserves := 0, token_total_supply := 1
    complete := false, creator := 2 }

/-- A configuration whose USD threshold the oracle value meets. -/
def cxConfig : Config :=
  { grpc_endpoint := "", rpc_endpoint := "", market_cap_threshold_usd := 1
    max_slippage_bps := 500, buy_amount_sol := 7, priority_fee_sol := 1
    compute_unit_limit := 200000 }

/-- Collaborators for which every USD conversion qualifies and every buy
execution fails. -/
def cxEnvFail : Env :=
  { calculate_market_cap_usd := fun _ => .ok 1
    fetch_bonding_curve_data := fun _ => .error .RpcError
    execute_buy := fun _ _ => .error .TransactionFailed }

/-- Collaborators for which every USD conversion qualifies and every buy
execution succeeds. -/
def cxEnvOk : Env :=
  { calculate_market_cap_usd := fun _ => .ok 1
    fetch_bonding_curve_data := fun _ => .error .RpcError
    execute_buy := fun _ _ => .ok 99 }

/-- Engine state tracking one token, nothing bought yet, wallet present. -/
def cxState : SniperState :=
  { config := cxConfig, tracked_tokens := [(1, cxToken)], bought_tokens := []
    bonding_curve_cache := [], wallet := some 0, test_mode_single_buy := false
    has_bought_once := false, halted := false }

/-- Two identical qualifying curve updates for the tracked token. -/
def cxQueue : List SniperEvent :=
  [SniperEvent.BondingCurveUpdated 3 cxCurve, SniperEvent.BondingCurveUpdated 3 cxCurve]

/-- C1 counterexample: two qualifying curve updates delivered before the
token's buy is handled make the engine emit two `BuyTriggered` events for
the mint, and — the buy failing — invoke `execute_buy` twice. -/
theorem duplicate_trigger_counterexample :
    countTriggersFor 1 (processEvents cxEnvFail 10 cxState cxQueue).2.1 = 2 ∧
    countExecsFor 1 (processEvents cxEnvFail 10 cxState cxQueue).2.2 = 2 := by decide

/-- C1 witness: in the same scenario with succeeding executions, the run
makes exactly one `execute_buy` invocation — within the proved bound. -/
theorem at_most_one_buy_execution_witness :
    countExecsFor 1 (processEvents cxEnvOk 10 cxState cxQueue).2.2 = 1 ∧
    countExecsFor 1 (processEvents cxEnvOk 10 cxState cxQueue).2.2 ≤ 1 :=
  ⟨by decide, at_most_one_buy_execution cxEnvOk 1 10 cxState cxQueue
    (fun _ _ _ => ⟨99, rfl⟩)⟩

/-- C2: when the mint is absent from the bought-set, every `execute_buy`
invocation the trigger handler makes is for that token and happens with the
mint already inserted in the bought-set; and if execution fails, the
handler leaves the bought-set exactly as it was before the handler ran. -/
theorem handle_buy_trigger_spec (env : Env) (st : SniperState)
    (token_info : TokenInfo) (market_cap buy_amount : ℕ)
    (habs : token_info.mint ∉ st.bought_tokens) :
    (∀ call ∈ (handle_buy_trigger env st token_info market_cap buy_amount).execs,
        call.token.mint = token_info.mint ∧ token_info.mint ∈ call.bought_at_call) ∧
    (∀ e : SniperError, env.execute_buy token_info buy_amount = .error e →
        (handle_buy_trigger env st token_info market_cap buy_amount).state.bought_tokens =
          st.bought_tokens) := by
  unfold handle_buy_trigger
  simp only [if_neg habs]
  by_cases htest : st.test_mode_single_buy ∧ st.has_bought_once
  · simp [htest]
  · simp only [htest, if_false]
    cases hw : st.wallet with
    | none =>
      dsimp only
      refine ⟨?_, ?_⟩
      · intro call hcall
        exact absurd hcall (List.not_mem_nil call)
      · intro e he
        exact setRemove_setInsert token_info.mint st.bought_tokens habs
    | some w =>
      dsimp only
      cases hres : env.execute_buy token_info buy_amount with
      | ok sig =>
        dsimp only
        refine ⟨?_, ?_⟩
        · intro call hcall
          simp only [List.mem_singleton] at hcall
          subst hcall
          exact ⟨rfl, setInsert_self_mem _ _⟩
        · intro e he
          exact absurd he (by simp)
      | error err =>
        dsimp only
        refine ⟨?_, ?_⟩
        · intro call hcall
          simp only [List.mem_singleton] at hcall
          subst hcall
          exact ⟨rfl, setInsert_self_mem _ _⟩
        · intro e he
          exact setRemove_setInsert token_info.mint st.bought_tokens habs

/-- C2 witness: with a failing execution the handler restores the empty
bought-set of the concrete starting state. -/
theorem handle_buy_trigger_spec_witness :
    (handle_buy_trigger cxEnvFail cxState cxToken 1 7).state.bought_tokens =
      cxState.bought_tokens :=
  (handle_buy_trigger_spec cxEnvFail cxState cxToken 1 7 (by decide)).2
    .TransactionFailed rfl

/-- C8 (amended): the four event kinds outside the named arms — buy
executed, buy failed, connection status, stats — are accepted by
`handle_event` with success, leave every field of the decision state
unchanged, emit nothing and execute nothing; in the code they are matched
by the single wildcard arm, not by named arms. -/
theorem handle_event_other_kinds_noop (env : Env) (st : SniperState)
    (token_info : TokenInfo) (sig : String) (spent received : ℕ)
    (err : String) (retry_count : ℕ) (connected : Bool) (endpoint : String)
    (a b c d : ℕ) :
    handle_event env st (.BuyExecuted token_info sig spent received) =
      ⟨st, [], [], .ok ()⟩ ∧
    handle_event env st (.BuyFailed token_info err retry_count) =
      ⟨st, [], [], .ok ()⟩ ∧
    handle_event env st (.ConnectionStatusChanged connected endpoint) =
      ⟨st, [], [], .ok ()⟩ ∧
    handle_event env st (.StatsUpdate a b c d) = ⟨st, [], [], .ok ()⟩ :=
  ⟨rfl, rfl, rfl, rfl⟩

/-- C8 counterexample: none of the four remaining event kinds is matched by
a named arm of `handle_event` — they fall to the wildcard arm. -/
theorem handle_event_wildcard_counterexample :
    matchedByNamedArm (.BuyExecuted cxToken "" 0 0) = false ∧
    matchedByNamedArm (.BuyFailed cxToken "" 0) = false ∧
    matchedByNamedArm (.ConnectionStatusChanged true "") = false ∧
    matchedByNamedArm (.StatsUpdate 0 0 0 0) = false := by decide

end PumpSniper
